import Mathlib

/-!
Shallow embedding of the transition-coordination core of the ai_dj_cara
browser extension: the injected page script (metadata-interception trap and
track observer, `src/unnamed/part_000`, with the `src/src/injection/injector.ts`
variant where it differs) and the content script (transition coordinator and
prefetch scheduler, `src/src/content/content.ts`).

Modelling conventions:
* JS strings are lists of characters (`Str`); JS `a || b` on strings is
  `jsOrS` (the empty string is falsy).
* Host-page internals (player element, queue store) are explicit data with
  `Option` for absent accessors and `Except Unit` for accessors that throw.
* The stateful scripts become explicit state-passing step functions whose
  observable effects (pausing the video, invoking the real play, dispatching
  bus events, sending runtime messages) are returned as action lists.
-/

set_option autoImplicit false

/-- JS strings, modelled as lists of characters. -/
abbrev Str := List Char

/-- Coerce a Lean string literal into the JS-string model. -/
def str (s : String) : Str := s.data

/-- JS `a || b` for two strings: the empty string is falsy. -/
def jsOrS (a b : Str) : Str := if a = [] then b else a

/-- Prepend a character to the first segment of a split result
(helper for the JS `String.split` model). -/
def consHead (c : Char) : List (List Char) → List (List Char)
  | [] => [[c]]
  | seg :: segs => (c :: seg) :: segs

/-- JS `s.split(sep)` for a single-character separator `sep`. -/
def splitOnChar (sep : Char) : List Char → List (List Char)
  | [] => [[]]
  | c :: rest =>
    if c = sep then [] :: splitOnChar sep rest
    else consHead c (splitOnChar sep rest)

/-- JS `s.split("::")`: greedy left-to-right scan for the two-colon
separator, as used on pair keys in `content.ts` (`pairKey.split('::')`). -/
def splitCC : List Char → List (List Char)
  | [] => [[]]
  | [c] => [[c]]
  | a :: b :: rest =>
    if a = ':' ∧ b = ':' then [] :: splitCC rest
    else consHead a (splitCC (b :: rest))

/-- `noCC s` holds when `s` contains no occurrence of the substring `"::"`. -/
def noCC : List Char → Bool
  | [] => true
  | [_] => true
  | a :: b :: rest => (!(a = ':' ∧ b = ':' : Bool)) && noCC (b :: rest)

/-- Whether a string ends with the character `':'`. -/
def endsColon : List Char → Bool
  | [] => false
  | [c] => decide (c = ':')
  | _ :: rest => endsColon rest

/-- JS `s.trim()`: strip whitespace from both ends. -/
def trimStr (s : Str) : Str :=
  ((s.dropWhile Char.isWhitespace).reverse.dropWhile Char.isWhitespace).reverse

/-- JS array indexing `arr[i]` as a partial read. -/
def nthItem {α : Type} : List α → Nat → Option α
  | [], _ => none
  | a :: _, 0 => some a
  | _ :: rest, n + 1 => nthItem rest n

/-! ## Data model (types.ts shapes as used by the core) -/

/-- The player's `getVideoData()` result (fields used by the core). -/
structure VideoData where
  title : Str
  author : Str
deriving DecidableEq, Repr

/-- A `MediaMetadata` value assigned to `navigator.mediaSession.metadata`. -/
structure MediaMetadata where
  title : Str
  artist : Str
  album : Str
deriving DecidableEq, Repr

/-- `CurrentSong`: snapshot of the presently loaded track. -/
structure CurrentSong where
  title : Str
  artist : Str
  album : Str
  isPaused : Bool
deriving DecidableEq, Repr

/-- `UpcomingSong`: the next queued track. -/
structure UpcomingSong where
  title : Str
  artist : Str
deriving DecidableEq, Repr

/-! ## Host queue state (input of `getNextSongData`) -/

/-- The unwrapped `playlistPanelVideoRenderer` record (fields used). -/
structure Renderer where
  selected : Bool
  titleRun : Option Str
  bylineRun : Option Str
deriving DecidableEq, Repr

/-- A queue entry: either envelope field may be present.
`direct` is `item.playlistPanelVideoRenderer`; `wrapped` is
`item.playlistPanelVideoWrapperRenderer?.primaryRenderer?.playlistPanelVideoRenderer`. -/
structure QItem where
  direct : Option Renderer
  wrapped : Option Renderer
deriving DecidableEq, Repr

/-- `item.playlistPanelVideoRenderer || item.playlistPanelVideoWrapperRenderer?...` -/
def unwrap (it : QItem) : Option Renderer := it.direct.or it.wrapped

/-- The fields of `state.queue` (or `state.player.queue`) used by the core.
`none` models an absent `items` / `automixItems` field (JS `|| []`). -/
structure QueueStateModel where
  items : Option (List QItem)
  automixItems : Option (List QItem)
deriving DecidableEq, Repr

/-- The Redux state returned by `store.getState()`: the code resolves
`state?.queue || state?.player?.queue`. -/
structure PageState where
  queueDirect : Option QueueStateModel
  playerQueue : Option QueueStateModel
deriving DecidableEq, Repr

/-- The queue element's store accessor: absent, throwing on `getState()`,
or returning a state. -/
inductive StoreAccess where
  | getStateThrows
  | getStateOk (st : PageState)
deriving DecidableEq, Repr

/-- Host input of the upcoming-track read: the (possibly absent) store. -/
structure HostQueue where
  store : Option StoreAccess
deriving DecidableEq, Repr

/-! ## Host player state (input of `getPlayerStatus`) -/

/-- Host input of the current-track read: the `movie_player` element.
`getVideoData`/`getPlayerState` model the accessors: `none` = accessor
absent (falsy), `some (.error ())` = calling it throws. -/
structure HostPlayer where
  present : Bool
  getVideoData : Option (Except Unit VideoData)
  getPlayerState : Option (Except Unit Int)
  byline : Option Str
deriving Repr

/-! ## Track Observer (part_000 lines 23–111) -/

/-- The selected-entry scan of `getNextSongData`: index of the first entry
whose unwrapped renderer exists and is flagged `selected`. -/
def findSelected : List QItem → Option Nat
  | [] => none
  | it :: rest =>
    match unwrap it with
    | some r => if r.selected then some 0 else (findSelected rest).map (· + 1)
    | none => (findSelected rest).map (· + 1)

/-- The queue-scanning part of `getNextSongData`, given a resolved
`queueState`: concatenate `items` and `automixItems`, find the selected
entry, and return the following entry's title/artist with the
"Unknown Title"/"Unknown Artist" defaults. -/
def getNextSongDataOk (q : QueueStateModel) : Option UpcomingSong :=
  let fullQueue := q.items.getD [] ++ q.automixItems.getD []
  if fullQueue = [] then none
  else
    match findSelected fullQueue with
    | none => none
    | some i =>
      if i + 1 < fullQueue.length then
        match (nthItem fullQueue (i + 1)).bind unwrap with
        | some r =>
          some { title := jsOrS (r.titleRun.getD []) (str "Unknown Title"),
                 artist := jsOrS (r.bylineRun.getD []) (str "Unknown Artist") }
        | none => none
      else none

/-- Body of `getNextSongData` in part_000 (inside the `try`): early
`return null` when the store is absent, then an unconditional
`store.getState()` call which may throw. -/
def getNextSongDataBody (h : HostQueue) : Except Unit (Option UpcomingSong) :=
  match h.store with
  | none => Except.ok none
  | some StoreAccess.getStateThrows => Except.error ()
  | some (StoreAccess.getStateOk st) =>
    match st.queueDirect.or st.playerQueue with
    | none => Except.ok none
    | some q => Except.ok (getNextSongDataOk q)

/-- `getNextSongData` of part_000: the body wrapped in `try/catch`,
mapping any exception to `null`. -/
def getNextSongData (h : HostQueue) : Option UpcomingSong :=
  match getNextSongDataBody h with
  | Except.ok r => r
  | Except.error _ => none

/-- `getNextSongData` of `src/src/injection/injector.ts`: same queue logic,
but with no `try/catch` — a throwing `getState()` propagates to the caller.
(`store?.getState ? store.getState() : null` guards absence, not throwing.) -/
def getNextSongDataInj (h : HostQueue) : Except Unit (Option UpcomingSong) :=
  match h.store with
  | none => Except.ok none
  | some StoreAccess.getStateThrows => Except.error ()
  | some (StoreAccess.getStateOk st) =>
    match st.queueDirect.or st.playerQueue with
    | none => Except.ok none
    | some q => Except.ok (getNextSongDataOk q)

/-- Body of `getPlayerStatus` in part_000 (inside the `try`): resolve
`getVideoData()`, prefer MediaSession metadata over video data for
title/artist, fall back to the parsed byline for the album, and read the
pause state (`getPlayerState() === 2`, defaulting to paused). -/
def getPlayerStatusBody (hp : HostPlayer) (md : Option MediaMetadata) :
    Except Unit (Option CurrentSong) :=
  let vdRes : Except Unit (Option VideoData) :=
    if hp.present then
      match hp.getVideoData with
      | none => Except.ok none
      | some (Except.ok v) => Except.ok (some v)
      | some (Except.error e) => Except.error e
    else Except.ok none
  match vdRes with
  | Except.error e => Except.error e
  | Except.ok videoData =>
    let title := jsOrS (md.elim [] (·.title)) (videoData.elim [] (·.title))
    let artist := jsOrS (md.elim [] (·.artist)) (videoData.elim [] (·.author))
    let album0 := md.elim [] (·.album)
    let album :=
      if album0 = [] then
        let parts := (splitOnChar '•' (hp.byline.getD [])).map trimStr
        if 1 < parts.length then (nthItem parts 1).getD [] else []
      else album0
    let psRes : Except Unit Bool :=
      if hp.present then
        match hp.getPlayerState with
        | none => Except.ok true
        | some (Except.ok s) => Except.ok (decide (s = 2))
        | some (Except.error e) => Except.error e
      else Except.ok true
    match psRes with
    | Except.error e => Except.error e
    | Except.ok isPaused =>
      Except.ok (some { title := title, artist := artist, album := album,
                        isPaused := isPaused })

/-- `getPlayerStatus` of part_000: the body wrapped in `try/catch`,
mapping any exception to `null`. -/
def getPlayerStatus (hp : HostPlayer) (md : Option MediaMetadata) :
    Option CurrentSong :=
  match getPlayerStatusBody hp md with
  | Except.ok r => r
  | Except.error _ => none

/-! ## Metadata Interception Trap (part_000 lines 113–180) -/

/-- Bus-event kinds published by the injected script. -/
inductive EventKind where
  | trigger
  | update
  | returnData
deriving DecidableEq, Repr

/-- The `detail` payload of a broadcast bus event (the `reason`/`timestamp`
fields carry no coordination content and are not modelled). -/
structure Detail where
  currentSong : Option CurrentSong
  upcomingSong : Option UpcomingSong
deriving DecidableEq, Repr

/-- Observable effects of the injected script. -/
inductive TrapAction where
  | pauseVideo
  | realPlay
  | publish (kind : EventKind) (d : Detail)
deriving DecidableEq, Repr

/-- Mutable state of the injected script: the play lock, the last known
titles, and the stored `_metadata` cell behind the trapped setter. -/
structure TrapState where
  isLocked : Bool
  currentTitle : Str
  lastUpcomingTitle : Str
  metadataReg : Option MediaMetadata
deriving Repr

/-- The host environment the injected script reads: whether a `<video>`
element exists, the player element, and the queue store. -/
structure TrapEnv where
  hasVideo : Bool
  player : HostPlayer
  queue : HostQueue
deriving Repr

/-- `broadcast(eventType)` of part_000: take a fresh Observer snapshot and,
only when the current-track read succeeded, dispatch the event and update
`currentTitle` / `lastUpcomingTitle` from the snapshot. -/
def broadcast (env : TrapEnv) (st : TrapState) (kind : EventKind) :
    TrapState × List TrapAction :=
  match getPlayerStatus env.player st.metadataReg with
  | some c =>
    let u := getNextSongData env.queue
    ({ st with currentTitle := c.title,
               lastUpcomingTitle := (u.map fun x => x.title).getD [] },
     [TrapAction.publish kind ⟨some c, u⟩])
  | none => (st, [])

/-- The trapped `mediaSession.metadata` setter of part_000: always store the
assigned value; when the value is non-null and its title differs from
`currentTitle`, lock, pause the video (if present) and broadcast a Trigger
event with a fresh snapshot. -/
def metadataSet (env : TrapEnv) (st : TrapState) (newValue : Option MediaMetadata) :
    TrapState × List TrapAction :=
  let st1 := { st with metadataReg := newValue }
  match newValue with
  | some m =>
    if m.title ≠ st.currentTitle then
      let st2 := { st1 with isLocked := true }
      let pauseActs := if env.hasVideo then [TrapAction.pauseVideo] else []
      let br := broadcast env st2 EventKind.trigger
      (br.1, pauseActs ++ br.2)
    else (st1, [])
  | none => (st1, [])

/-- Result of a call to the overridden `HTMLMediaElement.prototype.play`. -/
inductive PlayOutcome where
  | blockedTrivialSuccess
  | forwardedToReal
deriving DecidableEq, Repr

/-- The overridden `play`: while locked, return a trivially resolved promise
without engaging real playback; otherwise forward to the original `play`. -/
def playCall (st : TrapState) : PlayOutcome :=
  if st.isLocked then PlayOutcome.blockedTrivialSuccess
  else PlayOutcome.forwardedToReal

/-- The Resume-event listener of the injected script: clear the lock and
invoke the original (unintercepted) `play` on the video element if present. -/
def resumeEvent (env : TrapEnv) (st : TrapState) : TrapState × List TrapAction :=
  ({ st with isLocked := false },
   if env.hasVideo then [TrapAction.realPlay] else [])

/-! ## Transition Coordinator (content.ts) -/

/-- Payload of the `SONG_ABOUT_TO_END` announce request sent by
`triggerAnnounce` (field values as built in content.ts lines 196–204). -/
structure AnnouncePayload where
  currentSongTitle : Str
  currentSongArtist : Str
  upcomingSongTitle : Str
  upcomingSongArtist : Str
deriving DecidableEq, Repr

/-- Payload of the `PREWARM_RJ` prefetch request sent by `performPrefetch`
(the wall-clock `currentTime` string is not modelled). -/
structure PrewarmPayload where
  oldSongTitle : Str
  oldArtist : Str
  newSongTitle : Str
  newArtist : Str
deriving DecidableEq, Repr

/-- Observable effects of the content script. -/
inductive CAction where
  | dispatchResume
  | sendAnnounce (p : AnnouncePayload)
  | sendPrewarm (p : PrewarmPayload)
deriving DecidableEq, Repr

/-- Mutable state of the content script.  `prefetchTimer` holds the pair
key captured by the pending `setTimeout` closure (at most one timer is
live, since `schedulePrefetch` clears any previous one); `pendingResume`
counts the `TTS_ENDED` handlers registered by unresolved `triggerAnnounce`
promises. -/
structure CoordState where
  currentSong : Option CurrentSong
  upcomingSong : Option UpcomingSong
  processedPairs : List Str
  prefetchTimer : Option Str
  pendingResume : Nat
  isEnabled : Bool
deriving DecidableEq, Repr

/-- The pair key `` `${a}::${b}` ``. -/
def pairKey (a b : Str) : Str := a ++ str "::" ++ b

/-- The fixed delay (ms) passed to `setTimeout` in `schedulePrefetch`. -/
def prefetchDelayMs : Nat := 15000

/-- The announce message built in `triggerAnnounce`: titles are recovered
by splitting the pair key on `"::"`, the previous artist is the literal
`"Unknown"`, and the new artist is read from the live current song. -/
def announceMsgFor (k : Str) (cur : CurrentSong) : AnnouncePayload :=
  { currentSongTitle := (nthItem (splitCC k) 0).getD [],
    currentSongArtist := str "Unknown",
    upcomingSongTitle := (nthItem (splitCC k) 1).getD [],
    upcomingSongArtist := cur.artist }

/-- `schedulePrefetch`: cancel any pending timer; if both the current and
the upcoming song are known, start a fresh `prefetchDelayMs` timer whose
closure captures the pair key (the songs themselves are re-read live when
the timer fires). -/
def schedulePrefetch (st : CoordState) : CoordState :=
  match st.currentSong, st.upcomingSong with
  | some c, some u => { st with prefetchTimer := some (pairKey c.title u.title) }
  | _, _ => { st with prefetchTimer := none }

/-- `performPrefetch` at timer-fire time: re-validate that the live pair
still equals the scheduled key, skip already-processed pairs, otherwise
record the pair and dispatch the `PREWARM_RJ` request. -/
def performPrefetch (st : CoordState) (k : Str) : CoordState × List CAction :=
  match st.currentSong, st.upcomingSong with
  | some c, some u =>
    if pairKey c.title u.title ≠ k then (st, [])
    else if k ∈ st.processedPairs then (st, [])
    else ({ st with processedPairs := k :: st.processedPairs },
          [CAction.sendPrewarm ⟨c.title, c.artist, u.title, u.artist⟩])
  | _, _ => (st, [])

/-- `handleSongChange` up to its suspension point: when disabled, dispatch
Resume and stop; otherwise store the event snapshot, and either send the
announce request for `previous.title::new.title` (registering a `TTS_ENDED`
handler — the `await` defers `schedulePrefetch` to that handler's
resolution) or, with no previous/current track, dispatch Resume and
schedule the next prefetch immediately. -/
def handleSongChange (st : CoordState) (d : Detail) : CoordState × List CAction :=
  if st.isEnabled then
    let prev := st.currentSong
    let st1 := { st with currentSong := d.currentSong,
                         upcomingSong := d.upcomingSong }
    match prev, d.currentSong with
    | some p, some c =>
      ({ st1 with pendingResume := st1.pendingResume + 1 },
       [CAction.sendAnnounce (announceMsgFor (pairKey p.title c.title) c)])
    | _, _ => (schedulePrefetch st1, [CAction.dispatchResume])
  else (st, [CAction.dispatchResume])

/-- Events the content script reacts to.  `ttsEnded`'s flag is the live
`video.paused` value read by the global fallback listener; `safetyTimeout`
is the 5-second `setTimeout` in `triggerAnnounce`, whose callback body is
entirely commented out in the source. -/
inductive CEvent where
  | trigger (d : Detail)
  | update (d : Detail)
  | returnData (d : Detail)
  | ttsEnded (videoPaused : Bool)
  | timerFire
  | safetyTimeout
deriving Repr

/-- One reaction of the content script to an event.  On `ttsEnded` the
global fallback listener (registered first) dispatches Resume if the video
is paused, then every pending `triggerAnnounce` handler dispatches Resume
and its resumed continuation runs `schedulePrefetch` (idempotent, hence
applied once when any handler is pending). -/
def stepC (st : CoordState) : CEvent → CoordState × List CAction
  | CEvent.trigger d => handleSongChange st d
  | CEvent.update d =>
    if (d.currentSong.map fun s => s.title) ≠ (st.currentSong.map fun s => s.title) then
      handleSongChange st d
    else if (st.upcomingSong.map fun s => s.title) ≠ (d.upcomingSong.map fun s => s.title) then
      (schedulePrefetch { st with upcomingSong := d.upcomingSong }, [])
    else (st, [])
  | CEvent.returnData d =>
    let st1 := { st with currentSong := d.currentSong,
                         upcomingSong := d.upcomingSong }
    (if d.currentSong.isSome ∧ d.upcomingSong.isSome then schedulePrefetch st1
     else st1, [])
  | CEvent.ttsEnded videoPaused =>
    let globalActs := if videoPaused then [CAction.dispatchResume] else []
    let handlerActs := List.replicate st.pendingResume CAction.dispatchResume
    let st1 := if st.pendingResume = 0 then st else schedulePrefetch st
    ({ st1 with pendingResume := 0 }, globalActs ++ handlerActs)
  | CEvent.timerFire =>
    match st.prefetchTimer with
    | some k => performPrefetch { st with prefetchTimer := none } k
    | none => (st, [])
  | CEvent.safetyTimeout => (st, [])

/-- Fold `stepC` over an event list, accumulating the emitted actions. -/
def runC (st : CoordState) : List CEvent → CoordState × List CAction
  | [] => (st, [])
  | e :: evs =>
    let r1 := stepC st e
    let r2 := runC r1.1 evs
    (r2.1, r1.2 ++ r2.2)

/-- The content script's state at load time. -/
def initialCoordState : CoordState :=
  { currentSong := none, upcomingSong := none, processedPairs := [],
    prefetchTimer := none, pendingResume := 0, isEnabled := true }

/-- The title pair identifying a `PREWARM_RJ` action, if any. -/
def prewarmPairOf : CAction → Option Str
  | CAction.sendPrewarm p => some (pairKey p.oldSongTitle p.newSongTitle)
  | _ => none

/-- Number of `PREWARM_RJ` dispatches for pair `k` in an action list. -/
def prewarmCount (k : Str) (l : List CAction) : Nat :=
  (l.filter fun a => decide (prewarmPairOf a = some k)).length

/-- Events that can occur in a run in which the external service's
completion signal never arrives: any bus event whose detail carries a
current song (the injected script only broadcasts when the current-track
read succeeded), timer firings — but no `TTS_ENDED`. -/
def noTtsOk : CEvent → Prop
  | CEvent.trigger d => d.currentSong.isSome
  | CEvent.update d => d.currentSong.isSome
  | CEvent.returnData d => d.currentSong.isSome
  | CEvent.ttsEnded _ => False
  | CEvent.timerFire => True
  | CEvent.safetyTimeout => True

/-! ## Concrete fixtures used by witnesses and counterexamples -/

/-- A concrete previous track (title "A", artist "X"). -/
def songX : CurrentSong := { title := str "A", artist := str "X", album := [], isPaused := false }

/-- A concrete new track (title "B", artist "Y"). -/
def songY : CurrentSong := { title := str "B", artist := str "Y", album := [], isPaused := false }

/-- A concrete upcoming track (title "C", artist "Z"). -/
def upcomingC : UpcomingSong := { title := str "C", artist := str "Z" }

/-- A healthy host player: element present, accessors succeed. -/
def hostPlayerOk : HostPlayer :=
  { present := true,
    getVideoData := some (Except.ok { title := str "VT", author := str "VA" }),
    getPlayerState := some (Except.ok 1),
    byline := none }

/-- A host queue with no store exposed. -/
def hostQueueEmpty : HostQueue := { store := none }

/-- A trap environment with a video element and the healthy player. -/
def trapEnvOk : TrapEnv := { hasVideo := true, player := hostPlayerOk, queue := hostQueueEmpty }

/-- An unlocked trap state whose last known title is "A". -/
def trapStA : TrapState :=
  { isLocked := false, currentTitle := str "A", lastUpcomingTitle := [], metadataReg := none }

/-- A queue entry that unwraps to a selected renderer. -/
def selItem : QItem :=
  { direct := some { selected := true, titleRun := some (str "S"), bylineRun := none },
    wrapped := none }

/-- A queue entry in neither known envelope shape: it unwraps to nothing. -/
def emptyItem : QItem := { direct := none, wrapped := none }

/-- A queue whose selected entry is followed by an entry that does not
unwrap to a renderer. -/
def cexQueueState : QueueStateModel := { items := some [selItem, emptyItem], automixItems := none }

/-- A coordinator state that already stores songX as the current track. -/
def coordStA : CoordState :=
  { currentSong := some songX, upcomingSong := some upcomingC, processedPairs := [],
    prefetchTimer := none, pendingResume := 0, isEnabled := true }

/-- A trigger detail announcing songY with upcomingC queued next. -/
def detailB : Detail := { currentSong := some songY, upcomingSong := some upcomingC }

/-! ## Helper lemmas -/

theorem str_cc : str "::" = [':', ':'] := rfl

theorem splitCC_cons2 (a b : Char) (l : List Char) :
    splitCC (a :: b :: l)
      = if a = ':' ∧ b = ':' then [] :: splitCC l
        else consHead a (splitCC (b :: l)) := rfl

theorem noCC_cons2 (a b : Char) (l : List Char) :
    noCC (a :: b :: l) = ((!(a = ':' ∧ b = ':' : Bool)) && noCC (b :: l)) := rfl

theorem splitCC_noCC : ∀ (s : List Char), noCC s = true → splitCC s = [s] := by
  intro s
  induction s with
  | nil => intro _; rfl
  | cons a t ih =>
    cases t with
    | nil => intro _; rfl
    | cons b r =>
      intro h
      rw [noCC_cons2, Bool.and_eq_true] at h
      have hcond : ¬(a = ':' ∧ b = ':') := by
        have hb := h.1
        simp only [Bool.not_eq_true', decide_eq_false_iff_not] at hb
        exact hb
      rw [splitCC_cons2, if_neg hcond, ih h.2]
      rfl

theorem splitCC_append (b : List Char) :
    ∀ (a : List Char), noCC a = true → endsColon a = false →
      splitCC (a ++ ':' :: ':' :: b) = a :: splitCC b := by
  intro a
  induction a with
  | nil =>
    intro _ _
    rw [List.nil_append, splitCC_cons2, if_pos ⟨rfl, rfl⟩]
  | cons c t ih =>
    cases t with
    | nil =>
      intro _ h2
      have hc : ¬(c = ':') := by simpa [endsColon] using h2
      have hmid : splitCC (':' :: ':' :: b) = [] :: splitCC b := by
        rw [splitCC_cons2, if_pos ⟨rfl, rfl⟩]
      have hcond : ¬(c = ':' ∧ (':' : Char) = ':') := fun hh => hc hh.1
      show splitCC (c :: ':' :: ':' :: b) = [c] :: splitCC b
      rw [splitCC_cons2, if_neg hcond, hmid]
      rfl
    | cons d r =>
      intro h1 h2
      rw [noCC_cons2, Bool.and_eq_true] at h1
      have hcond : ¬(c = ':' ∧ d = ':') := by
        have hb := h1.1
        simp only [Bool.not_eq_true', decide_eq_false_iff_not] at hb
        exact hb
      have h2' : endsColon (d :: r) = false := by simpa [endsColon] using h2
      have ihr := ih h1.2 h2'
      rw [List.cons_append] at ihr
      rw [List.cons_append, List.cons_append]
      rw [splitCC_cons2, if_neg hcond, ihr]
      rfl

theorem splitCC_pairKey (a b : List Char)
    (h1 : noCC a = true) (h2 : endsColon a = false) (h3 : noCC b = true) :
    splitCC (pairKey a b) = [a, b] := by
  have hk : pairKey a b = a ++ ':' :: ':' :: b := by
    simp [pairKey, str_cc]
  rw [hk, splitCC_append b a h1 h2, splitCC_noCC b h3]

theorem prewarmCount_append (k : Str) (l1 l2 : List CAction) :
    prewarmCount k (l1 ++ l2) = prewarmCount k l1 + prewarmCount k l2 := by
  simp [prewarmCount, List.filter_append]

theorem prewarmCount_resume (k : Str) : prewarmCount k [CAction.dispatchResume] = 0 := rfl

theorem prewarmCount_announce (k : Str) (p : AnnouncePayload) :
    prewarmCount k [CAction.sendAnnounce p] = 0 := rfl

theorem prewarmCount_replicate (k : Str) (n : Nat) :
    prewarmCount k (List.replicate n CAction.dispatchResume) = 0 := by
  induction n with
  | zero => rfl
  | succ m ih =>
    rw [List.replicate_succ]
    have : prewarmCount k (CAction.dispatchResume :: List.replicate m CAction.dispatchResume)
        = prewarmCount k (List.replicate m CAction.dispatchResume) := by
      simp [prewarmCount, List.filter_cons, prewarmPairOf]
    rw [this, ih]

theorem prewarmCount_prewarm (k : Str) (p : PrewarmPayload) :
    prewarmCount k [CAction.sendPrewarm p]
      = if pairKey p.oldSongTitle p.newSongTitle = k then 1 else 0 := by
  by_cases h : pairKey p.oldSongTitle p.newSongTitle = k <;>
    simp [prewarmCount, List.filter_cons, prewarmPairOf, h]

/-! ## Claim theorems -/

/-- C1: while the Trap's `isLocked` flag is true every playback-start call
is a no-op reporting trivial success without engaging real playback; while
it is false every call is forwarded to the real play operation; and the
Resume handler clears the lock and itself invokes the real, unintercepted
play on the media element, so the first playback-start call made after a
Resume event is forwarded to real playback. -/
theorem C1_lock_exclusivity :
    (∀ st : TrapState, st.isLocked = true →
      playCall st = PlayOutcome.blockedTrivialSuccess)
    ∧ (∀ st : TrapState, st.isLocked = false →
      playCall st = PlayOutcome.forwardedToReal)
    ∧ (∀ (env : TrapEnv) (st : TrapState), env.hasVideo = true →
      (resumeEvent env st).1.isLocked = false
      ∧ (resumeEvent env st).2 = [TrapAction.realPlay]
      ∧ playCall (resumeEvent env st).1 = PlayOutcome.forwardedToReal) := by
  refine ⟨fun st h => ?_, fun st h => ?_, fun env st h => ⟨rfl, ?_, ?_⟩⟩
  · simp [playCall, h]
  · simp [playCall, h]
  · simp [resumeEvent, h]
  · simp [playCall, resumeEvent]

/-- Witness for C1 at concrete states: a locked state blocks, the unlocked
fixture forwards, and resuming the locked state re-enables real playback. -/
theorem C1_lock_exclusivity_witness :
    playCall ⟨true, [], [], none⟩ = PlayOutcome.blockedTrivialSuccess
    ∧ playCall trapStA = PlayOutcome.forwardedToReal
    ∧ (resumeEvent trapEnvOk ⟨true, [], [], none⟩).1.isLocked = false
    ∧ (resumeEvent trapEnvOk ⟨true, [], [], none⟩).2 = [TrapAction.realPlay]
    ∧ playCall (resumeEvent trapEnvOk ⟨true, [], [], none⟩).1
        = PlayOutcome.forwardedToReal := by
  have h1 := C1_lock_exclusivity.1 ⟨true, [], [], none⟩ rfl
  have h2 := C1_lock_exclusivity.2.1 trapStA rfl
  have h3 := C1_lock_exclusivity.2.2 trapEnvOk ⟨true, [], [], none⟩ rfl
  exact ⟨h1, h2, h3.1, h3.2.1, h3.2.2⟩

/-- C10: the pair-key function is not injective — any title containing
`"::"` lets two distinct title pairs share a key (universally:
`pairKey (a ++ "::" ++ b) c = pairKey a (b ++ "::" ++ c)`), and the
announce flow's recovery of titles by splitting the key on `"::"` does not
round-trip: for the pair ("A::B","C") the titles placed in the outgoing
message differ from the stored titles. -/
theorem C10_pairKey_collision :
    (∀ a b c : Str, pairKey (a ++ str "::" ++ b) c = pairKey a (b ++ str "::" ++ c))
    ∧ pairKey (str "A::B") (str "C") = pairKey (str "A") (str "B::C")
    ∧ ¬(str "A::B" = str "A" ∧ str "C" = str "B::C")
    ∧ (announceMsgFor (pairKey (str "A::B") (str "C")) songY).currentSongTitle
        ≠ str "A::B"
    ∧ (announceMsgFor (pairKey (str "A::B") (str "C")) songY).upcomingSongTitle
        ≠ str "C" := by
  refine ⟨fun a b c => ?_, by decide, by decide, by decide, by decide⟩
  simp [pairKey, List.append_assoc]

/-- C5: scheduling a prefetch replaces any pending timer with a fresh
fixed 15-second timer for the live pair (so a timer for a superseded pair
can never fire), a `PREWARM_RJ` dispatch at fire time can only be for the
pair whose timer was pending, and when the live pair no longer matches the
scheduled key the fire is silently abandoned: no dispatch, no error. -/
theorem C5_timer_supersession :
    (∀ (st : CoordState) (c : CurrentSong) (u : UpcomingSong),
      st.currentSong = some c → st.upcomingSong = some u →
      (schedulePrefetch st).prefetchTimer = some (pairKey c.title u.title))
    ∧ (∀ st : CoordState, st.currentSong = none ∨ st.upcomingSong = none →
      (schedulePrefetch st).prefetchTimer = none)
    ∧ (∀ (st : CoordState) (k : Str),
      1 ≤ prewarmCount k (stepC st CEvent.timerFire).2 → st.prefetchTimer = some k)
    ∧ (∀ (st : CoordState) (k : Str), st.prefetchTimer = some k →
      (∀ (c : CurrentSong) (u : UpcomingSong),
        st.currentSong = some c → st.upcomingSong = some u →
        pairKey c.title u.title ≠ k) →
      stepC st CEvent.timerFire = ({ st with prefetchTimer := none }, []))
    ∧ prefetchDelayMs = 15000 := by
  refine ⟨fun st c u h1 h2 => ?_, fun st h => ?_, fun st k h => ?_,
          fun st k hk hstale => ?_, rfl⟩
  · simp [schedulePrefetch, h1, h2]
  · rcases hcs : st.currentSong with _ | c <;> rcases hus : st.upcomingSong with _ | u <;>
      simp_all [schedulePrefetch]
  · rcases ht : st.prefetchTimer with _ | k'
    · simp [stepC, ht, prewarmCount] at h
    · rcases hcs : st.currentSong with _ | c <;> rcases hus : st.upcomingSong with _ | u <;>
        simp only [stepC, ht, performPrefetch, hcs, hus] at h
      · simp [prewarmCount] at h
      · simp [prewarmCount] at h
      · simp [prewarmCount] at h
      · by_cases hne : pairKey c.title u.title ≠ k'
        · rw [if_pos hne] at h
          simp [prewarmCount] at h
        · rw [if_neg hne] at h
          push_neg at hne
          by_cases hmem : k' ∈ st.processedPairs
          · rw [if_pos hmem] at h
            simp [prewarmCount] at h
          · rw [if_neg hmem] at h
            rw [prewarmCount_prewarm] at h
            by_cases hkk : pairKey c.title u.title = k
            · rw [ht, hne] at *
              exact congrArg some hkk ▸ rfl
            · rw [if_neg hkk] at h
              omega
  · rcases hcs : st.currentSong with _ | c <;> rcases hus : st.upcomingSong with _ | u <;>
      simp only [stepC, hk, performPrefetch, hcs, hus]
    rw [if_pos (hstale c u hcs hus)]

/-- Witness for C5: scheduling on the fixture state sets the timer for
"A::C", and firing a stale "A::C" timer after the current song moved to
songY dispatches nothing and only clears the timer. -/
theorem C5_timer_supersession_witness :
    (schedulePrefetch coordStA).prefetchTimer = some (pairKey (str "A") (str "C"))
    ∧ stepC ⟨some songY, some upcomingC, [], some (pairKey (str "A") (str "C")), 0, true⟩
        CEvent.timerFire
      = (⟨some songY, some upcomingC, [], none, 0, true⟩, []) := by
  constructor
  · exact C5_timer_supersession.1 coordStA songX upcomingC rfl rfl
  · refine C5_timer_supersession.2.2.2.1
      ⟨some songY, some upcomingC, [], some (pairKey (str "A") (str "C")), 0, true⟩
      (pairKey (str "A") (str "C")) rfl ?_
    intro c u hc hu
    have hc' : songY = c := by simpa using hc
    have hu' : upcomingC = u := by simpa using hu
    cases hc'
    cases hu'
    decide

/-- C2: on a Trigger event (enabled, idle), if a previous current track was
stored the Coordinator sends the announce request for the pair key
`previous.title::new.title` (and no Resume), and when the completion signal
later resolves the announce it dispatches Resume and schedules the prefetch
for `new.title::upcoming.title`; with no previous track it dispatches
Resume immediately and schedules that prefetch at once. -/
theorem C2_trigger_handling :
    ∀ (st : CoordState) (d : Detail) (cur : CurrentSong) (up : UpcomingSong),
      st.isEnabled = true → st.pendingResume = 0 →
      d.currentSong = some cur → d.upcomingSong = some up →
      ((∀ prev : CurrentSong, st.currentSong = some prev →
          stepC st (CEvent.trigger d)
            = ({ st with currentSong := some cur, upcomingSong := some up, pendingResume := 1 },
               [CAction.sendAnnounce (announceMsgFor (pairKey prev.title cur.title) cur)])
          ∧ (stepC (stepC st (CEvent.trigger d)).1 (CEvent.ttsEnded false)).2
              = [CAction.dispatchResume]
          ∧ (stepC (stepC st (CEvent.trigger d)).1 (CEvent.ttsEnded false)).1.prefetchTimer
              = some (pairKey cur.title up.title)
          ∧ (stepC (stepC st (CEvent.trigger d)).1 (CEvent.ttsEnded false)).1.pendingResume
              = 0)
       ∧ (st.currentSong = none →
          stepC st (CEvent.trigger d)
            = ({ st with currentSong := some cur, upcomingSong := some up, prefetchTimer := some (pairKey cur.title up.title) },
               [CAction.dispatchResume]))) := by
  intro st d cur up hen hpr hc hu
  constructor
  · intro prev hprev
    have hstep : stepC st (CEvent.trigger d)
        = ({ st with currentSong := some cur, upcomingSong := some up, pendingResume := 1 },
           [CAction.sendAnnounce (announceMsgFor (pairKey prev.title cur.title) cur)]) := by
      simp [stepC, handleSongChange, hen, hprev, hc, hu, hpr]
    refine ⟨hstep, ?_, ?_, ?_⟩ <;>
      rw [hstep] <;> simp [stepC, schedulePrefetch, List.replicate]
  · intro hnone
    simp [stepC, handleSongChange, hen, hnone, hc, hu, schedulePrefetch]

/-- Witness for C2 at the fixtures: the stored track songX, a trigger for
songY with upcomingC queued. -/
theorem C2_trigger_handling_witness :
    stepC coordStA (CEvent.trigger detailB)
      = ({ coordStA with currentSong := some songY, upcomingSong := some upcomingC, pendingResume := 1 },
         [CAction.sendAnnounce (announceMsgFor (pairKey songX.title songY.title) songY)])
    ∧ (stepC (stepC coordStA (CEvent.trigger detailB)).1 (CEvent.ttsEnded false)).2
        = [CAction.dispatchResume]
    ∧ (stepC (stepC coordStA (CEvent.trigger detailB)).1 (CEvent.ttsEnded false)).1.prefetchTimer
        = some (pairKey songY.title upcomingC.title)
    ∧ stepC { coordStA with currentSong := none } (CEvent.trigger detailB)
        = ({ coordStA with currentSong := some songY, upcomingSong := some upcomingC, prefetchTimer := some (pairKey songY.title upcomingC.title) },
           [CAction.dispatchResume]) := by
  have h := C2_trigger_handling coordStA detailB songY upcomingC rfl rfl rfl rfl
  have h1 := h.1 songX rfl
  have h2 := C2_trigger_handling { coordStA with currentSong := none } detailB songY upcomingC
    rfl rfl rfl rfl
  refine ⟨h1.1, h1.2.1, h1.2.2.1, ?_⟩
  have h3 := h2.2 rfl
  rw [h3]

/-- Counterexample to C9: for the stored previous track songX (artist "X")
and the new track songY (artist "Y"), the dispatched `SONG_ABOUT_TO_END`
message carries the literal "Unknown" as the previous artist — not the
previous track's artist "X" as the claim states. -/
theorem C9_counterexample :
    (stepC coordStA (CEvent.trigger detailB)).2
      = [CAction.sendAnnounce ⟨str "A", str "Unknown", str "B", str "Y"⟩]
    ∧ songX.artist = str "X"
    ∧ str "Unknown" ≠ str "X" := by
  refine ⟨?_, rfl, by decide⟩
  decide

/-- C9 (amended): the announce message recovers the previous and new titles
by splitting the pair key on `"::"` — they equal the stored titles whenever
the previous title contains no `"::"` and does not end in `':'` and the new
title contains no `"::"` — carries the new track's artist as observed, but
always the constant "Unknown" in place of the previous track's artist. -/
theorem C9_announce_payload :
    ∀ (st : CoordState) (d : Detail) (prev cur : CurrentSong),
      st.isEnabled = true → st.currentSong = some prev → d.currentSong = some cur →
      noCC prev.title = true → endsColon prev.title = false → noCC cur.title = true →
      (stepC st (CEvent.trigger d)).2
        = [CAction.sendAnnounce
            { currentSongTitle := prev.title, currentSongArtist := str "Unknown",
              upcomingSongTitle := cur.title, upcomingSongArtist := cur.artist }] := by
  intro st d prev cur hen hprev hc h1 h2 h3
  have hmsg : announceMsgFor (pairKey prev.title cur.title) cur
      = { currentSongTitle := prev.title, currentSongArtist := str "Unknown",
          upcomingSongTitle := cur.title, upcomingSongArtist := cur.artist } := by
    simp [announceMsgFor, splitCC_pairKey prev.title cur.title h1 h2 h3, nthItem]
  simp [stepC, handleSongChange, hen, hprev, hc, hmsg]

/-- Witness for C9 at the fixtures: titles "A" and "B" are `"::"`-free, and
the dispatched message is exactly as the amended claim describes. -/
theorem C9_announce_payload_witness :
    (stepC coordStA (CEvent.trigger detailB)).2
      = [CAction.sendAnnounce
          { currentSongTitle := songX.title, currentSongArtist := str "Unknown",
            upcomingSongTitle := songY.title, upcomingSongArtist := songY.artist }] :=
  C9_announce_payload coordStA detailB songX songY rfl rfl rfl (by decide) (by decide) (by decide)

theorem getPlayerStatus_title (hp : HostPlayer) (m : MediaMetadata) (c : CurrentSong)
    (h : getPlayerStatus hp (some m) = some c) (hne : m.title ≠ []) :
    c.title = m.title := by
  obtain ⟨pres, gvd, gps, byl⟩ := hp
  cases pres <;> rcases gvd with _ | ⟨e⟩ | ⟨v⟩ <;> rcases gps with _ | ⟨e2⟩ | ⟨s2⟩ <;>
    simp only [getPlayerStatus, getPlayerStatusBody] at h
  all_goals simp at h
  all_goals (rw [← h]; simp [jsOrS, hne])

/-- Counterexample to C3: assigning metadata with an EMPTY title from a
state whose stored title is "A" locks and pauses — the code's trigger
condition is only "non-null and title differs", with no non-emptiness
requirement, so the claim's "exactly when ... and is non-empty" is false
at this input. -/
theorem C3_counterexample :
    trapStA.isLocked = false
    ∧ trapStA.currentTitle = str "A"
    ∧ (⟨[], [], []⟩ : MediaMetadata).title = []
    ∧ (metadataSet trapEnvOk trapStA (some ⟨[], [], []⟩)).1.isLocked = true
    ∧ TrapAction.pauseVideo ∈ (metadataSet trapEnvOk trapStA (some ⟨[], [], []⟩)).2 := by
  decide

/-- C3 (amended): every metadata assignment is stored so reads return it;
assignments that are null or carry the same title as the stored one are
inert; and exactly when the assigned value is non-null and its title
differs from the stored `lastKnownTitle` — regardless of emptiness — the
Trap locks, pauses the video (when one exists), and, provided the
Observer's current-track read succeeds, publishes a Trigger event carrying
the fresh snapshot and updates `lastKnownTitle` to the snapshot's title,
which equals the assigned title whenever that title is non-empty. -/
theorem C3_metadata_assignment :
    (∀ (env : TrapEnv) (st : TrapState) (nv : Option MediaMetadata),
      (metadataSet env st nv).1.metadataReg = nv)
    ∧ (∀ (env : TrapEnv) (st : TrapState) (m : MediaMetadata), m.title = st.currentTitle →
      metadataSet env st (some m) = ({ st with metadataReg := some m }, []))
    ∧ (∀ (env : TrapEnv) (st : TrapState),
      metadataSet env st none = ({ st with metadataReg := none }, []))
    ∧ (∀ (env : TrapEnv) (st : TrapState) (m : MediaMetadata),
      m.title ≠ st.currentTitle → env.hasVideo = true →
      (metadataSet env st (some m)).1.isLocked = true
      ∧ TrapAction.pauseVideo ∈ (metadataSet env st (some m)).2
      ∧ (∀ c : CurrentSong, getPlayerStatus env.player (some m) = some c →
          TrapAction.publish EventKind.trigger ⟨some c, getNextSongData env.queue⟩
            ∈ (metadataSet env st (some m)).2
          ∧ (metadataSet env st (some m)).1.currentTitle = c.title
          ∧ (m.title ≠ [] → c.title = m.title))) := by
  refine ⟨fun env st nv => ?_, fun env st m h => ?_, fun env st => rfl,
          fun env st m hm hv => ?_⟩
  · cases nv with
    | none => rfl
    | some m =>
      by_cases hm : m.title ≠ st.currentTitle
      · cases hgp : getPlayerStatus env.player (some m) <;>
          simp [metadataSet, hm, broadcast, hgp]
      · simp [metadataSet, hm]
  · simp [metadataSet, h]
  · refine ⟨?_, ?_, fun c hc => ⟨?_, ?_, fun hne => getPlayerStatus_title env.player m c hc hne⟩⟩
    · cases hgp : getPlayerStatus env.player (some m) <;>
        simp [metadataSet, hm, broadcast, hgp]
    · cases hgp : getPlayerStatus env.player (some m) <;>
        simp [metadataSet, hm, hv, broadcast, hgp]
    · simp [metadataSet, hm, hv, broadcast, hc]
    · simp [metadataSet, hm, broadcast, hc]

/-- Witness for C3 at the fixtures: assigning title "B" over stored "A"
locks, pauses, publishes the snapshot Trigger, and updates the stored
title to "B". -/
theorem C3_metadata_assignment_witness :
    (metadataSet trapEnvOk trapStA (some ⟨str "B", str "Y", str "L"⟩)).1.isLocked = true
    ∧ TrapAction.pauseVideo ∈ (metadataSet trapEnvOk trapStA (some ⟨str "B", str "Y", str "L"⟩)).2
    ∧ TrapAction.publish EventKind.trigger ⟨some ⟨str "B", str "Y", str "L", false⟩, none⟩
        ∈ (metadataSet trapEnvOk trapStA (some ⟨str "B", str "Y", str "L"⟩)).2
    ∧ (metadataSet trapEnvOk trapStA (some ⟨str "B", str "Y", str "L"⟩)).1.currentTitle
        = str "B" := by
  have h := C3_metadata_assignment.2.2.2 trapEnvOk trapStA ⟨str "B", str "Y", str "L"⟩
    (by decide) rfl
  have hc := h.2.2 ⟨str "B", str "Y", str "L", false⟩ (by decide)
  exact ⟨h.1, h.2.1, hc.1, hc.2.1⟩

theorem nthItem_lt {α : Type} :
    ∀ (L : List α) (n : Nat) (x : α), nthItem L n = some x → n < L.length := by
  intro L
  induction L with
  | nil => intro n x h; cases h
  | cons a t ih =>
    intro n x h
    cases n with
    | zero => simp [List.length_cons]
    | succ m =>
      have := ih m x h
      simp [List.length_cons]
      omega

theorem findSelected_lt :
    ∀ (L : List QItem) (i : Nat), findSelected L = some i → i < L.length := by
  intro L
  induction L with
  | nil => intro i h; cases h
  | cons a t ih =>
    intro i h
    rcases hu : unwrap a with _ | r
    · simp only [findSelected, hu] at h
      rcases Option.map_eq_some'.mp h with ⟨j, hj, rfl⟩
      have := ih j hj
      simp only [List.length_cons]
      omega
    · by_cases hs : r.selected = true
      · simp [findSelected, hu, hs] at h
        simp only [List.length_cons]
        omega
      · simp only [findSelected, hu, if_neg hs] at h
        rcases Option.map_eq_some'.mp h with ⟨j, hj, rfl⟩
        have := ih j hj
        simp only [List.length_cons]
        omega

/-- Counterexample to C6: a queue whose selected entry (index 0) is
followed by an entry in neither known envelope shape.  The selected entry
is found and is not last, yet the read returns absent — not the following
entry's data with "Unknown Title"/"Unknown Artist" defaults as the claim
states. -/
theorem C6_counterexample :
    findSelected (cexQueueState.items.getD [] ++ cexQueueState.automixItems.getD []) = some 0
    ∧ (cexQueueState.items.getD [] ++ cexQueueState.automixItems.getD []).length = 2
    ∧ getNextSongDataOk cexQueueState = none
    ∧ getNextSongData ⟨some (StoreAccess.getStateOk ⟨some cexQueueState, none⟩)⟩ = none := by
  decide

/-- C6 (amended): the upcoming read concatenates the main and automix
lists, scans for the first selected entry, returns absent when none is
selected or the selected entry is last, and when the selected entry is
followed by an entry that unwraps to a renderer returns that entry's
title/artist with the "Unknown Title"/"Unknown Artist" defaults; when the
following entry does not unwrap to a renderer it returns absent. -/
theorem C6_readUpcoming :
    (∀ (q : QueueStateModel) (pq : Option QueueStateModel),
      getNextSongData ⟨some (StoreAccess.getStateOk ⟨some q, pq⟩)⟩ = getNextSongDataOk q)
    ∧ (∀ q : QueueStateModel,
      findSelected (q.items.getD [] ++ q.automixItems.getD []) = none →
      getNextSongDataOk q = none)
    ∧ (∀ (q : QueueStateModel) (i : Nat),
      findSelected (q.items.getD [] ++ q.automixItems.getD []) = some i →
      i + 1 = (q.items.getD [] ++ q.automixItems.getD []).length →
      getNextSongDataOk q = none)
    ∧ (∀ (q : QueueStateModel) (i : Nat) (r : Renderer),
      findSelected (q.items.getD [] ++ q.automixItems.getD []) = some i →
      (nthItem (q.items.getD [] ++ q.automixItems.getD []) (i + 1)).bind unwrap = some r →
      getNextSongDataOk q
        = some ⟨jsOrS (r.titleRun.getD []) (str "Unknown Title"),
                jsOrS (r.bylineRun.getD []) (str "Unknown Artist")⟩)
    ∧ (∀ (q : QueueStateModel) (i : Nat),
      findSelected (q.items.getD [] ++ q.automixItems.getD []) = some i →
      i + 1 < (q.items.getD [] ++ q.automixItems.getD []).length →
      (nthItem (q.items.getD [] ++ q.automixItems.getD []) (i + 1)).bind unwrap = none →
      getNextSongDataOk q = none) := by
  refine ⟨fun q pq => rfl, fun q h => ?_, fun q i h hlen => ?_,
          fun q i r h hnext => ?_, fun q i h hlt hnone => ?_⟩
  · simp [getNextSongDataOk, h]
  · by_cases hL : (q.items.getD [] ++ q.automixItems.getD []) = []
    · rw [hL] at h
      simp [findSelected] at h
    · simp [getNextSongDataOk, hL, h, ← hlen]
  · have hsome : ∃ x, nthItem (q.items.getD [] ++ q.automixItems.getD []) (i + 1) = some x := by
      rcases hn : nthItem (q.items.getD [] ++ q.automixItems.getD []) (i + 1) with _ | x
      · rw [hn] at hnext
        cases hnext
      · exact ⟨x, rfl⟩
    rcases hsome with ⟨x, hx⟩
    have hlt := nthItem_lt _ _ _ hx
    have hL : (q.items.getD [] ++ q.automixItems.getD []) ≠ [] := by
      intro hnil
      rw [hnil] at hlt
      simp at hlt
    simp only [List.length_append] at hlt
    simp [getNextSongDataOk, hL, h, hlt, hnext]
  · have hL : (q.items.getD [] ++ q.automixItems.getD []) ≠ [] := by
      intro hnil
      rw [hnil] at hlt
      simp at hlt
    simp only [List.length_append] at hlt
    simp [getNextSongDataOk, hL, h, hlt, hnone]

/-- Witness for C6: a selected entry followed by a well-formed entry with
title "N" and no byline yields ("N", "Unknown Artist"). -/
theorem C6_readUpcoming_witness :
    getNextSongDataOk ⟨some [selItem, ⟨some ⟨false, some (str "N"), none⟩, none⟩], none⟩
      = some ⟨str "N", str "Unknown Artist"⟩ := by
  have h := C6_readUpcoming.2.2.2.1
    ⟨some [selItem, ⟨some ⟨false, some (str "N"), none⟩, none⟩], none⟩
    0 ⟨false, some (str "N"), none⟩ (by decide) (by decide)
  exact h.trans (by decide)

/-- Counterexample to C7: the `injector.ts` variant of the upcoming read
has no `try/catch`, so on a host whose store's `getState()` throws, the
read propagates the exception to the caller instead of returning absent. -/
theorem C7_counterexample :
    getNextSongDataInj ⟨some StoreAccess.getStateThrows⟩ = Except.error () := rfl

/-- C7 (amended): the part_000 Observer's reads never propagate — whenever
the body of the upcoming read or of the current read raises, the
surrounding `try/catch` resolves the read to the absent value; the
`injector.ts` variant of the upcoming read, however, propagates host
exceptions (see the counterexample). -/
theorem C7_error_policy :
    (∀ h : HostQueue, getNextSongDataBody h = Except.error () →
      getNextSongData h = none)
    ∧ (∀ (hp : HostPlayer) (md : Option MediaMetadata),
      getPlayerStatusBody hp md = Except.error () → getPlayerStatus hp md = none) := by
  constructor
  · intro h hb
    simp [getNextSongData, hb]
  · intro hp md hb
    simp [getPlayerStatus, hb]

/-- Witness for C7: a throwing `getState()` makes part_000's upcoming read
return absent, and a throwing `getVideoData()` makes the current read
return absent. -/
theorem C7_error_policy_witness :
    getNextSongData ⟨some StoreAccess.getStateThrows⟩ = none
    ∧ getPlayerStatus ⟨true, some (Except.error ()), none, none⟩ none = none := by
  exact ⟨C7_error_policy.1 _ rfl, C7_error_policy.2 ⟨true, some (Except.error ()), none, none⟩ none rfl⟩

theorem schedulePrefetch_fields (st : CoordState) :
    (schedulePrefetch st).currentSong = st.currentSong
    ∧ (schedulePrefetch st).upcomingSong = st.upcomingSong
    ∧ (schedulePrefetch st).processedPairs = st.processedPairs
    ∧ (schedulePrefetch st).pendingResume = st.pendingResume
    ∧ (schedulePrefetch st).isEnabled = st.isEnabled := by
  rcases st with ⟨cs, us, pp, pt, pr, en⟩
  cases cs <;> cases us <;> simp [schedulePrefetch]

theorem performPrefetch_fields (st : CoordState) (k : Str) :
    (performPrefetch st k).1.currentSong = st.currentSong
    ∧ (performPrefetch st k).1.upcomingSong = st.upcomingSong
    ∧ (performPrefetch st k).1.pendingResume = st.pendingResume
    ∧ (performPrefetch st k).1.isEnabled = st.isEnabled
    ∧ CAction.dispatchResume ∉ (performPrefetch st k).2 := by
  rcases st with ⟨cs, us, pp, pt, pr, en⟩
  cases cs with
  | none => simp [performPrefetch]
  | some c =>
    cases us with
    | none => simp [performPrefetch]
    | some u =>
      by_cases h1 : pairKey c.title u.title ≠ k
      · simp [performPrefetch, h1]
      · by_cases h2 : k ∈ pp
        · simp [performPrefetch, h1, h2]
        · simp [performPrefetch, h1, h2]

theorem handleSongChange_prewarm (st : CoordState) (d : Detail) (k : Str) :
    (handleSongChange st d).1.processedPairs = st.processedPairs
    ∧ prewarmCount k (handleSongChange st d).2 = 0 := by
  rcases hst : st.isEnabled
  · simp [handleSongChange, hst, prewarmCount, prewarmPairOf]
  · rcases hcs : st.currentSong with _ | p <;> rcases hdc : d.currentSong with _ | c <;>
      simp [handleSongChange, hst, hcs, hdc, prewarmCount, prewarmPairOf,
        (schedulePrefetch_fields _).2.2.1]

theorem stepC_prewarm_master (st : CoordState) (e : CEvent) (k : Str) :
    (k ∈ st.processedPairs → k ∈ (stepC st e).1.processedPairs)
    ∧ prewarmCount k (stepC st e).2 ≤ 1
    ∧ (1 ≤ prewarmCount k (stepC st e).2 →
        k ∉ st.processedPairs ∧ k ∈ (stepC st e).1.processedPairs)
    ∧ (k ∈ (stepC st e).1.processedPairs →
        k ∈ st.processedPairs ∨ 1 ≤ prewarmCount k (stepC st e).2) := by
  cases e with
  | trigger d =>
    have h := handleSongChange_prewarm st d k
    have hs : stepC st (CEvent.trigger d) = handleSongChange st d := rfl
    rw [hs, h.1, h.2]
    exact ⟨fun hm => hm, by omega, by omega, fun hm => Or.inl hm⟩
  | update d =>
    by_cases h1 : (d.currentSong.map fun s => s.title) ≠ (st.currentSong.map fun s => s.title)
    · have h := handleSongChange_prewarm st d k
      have hs : stepC st (CEvent.update d) = handleSongChange st d := by
        simp [stepC, h1]
      rw [hs, h.1, h.2]
      exact ⟨fun hm => hm, by omega, by omega, fun hm => Or.inl hm⟩
    · by_cases h2 : (st.upcomingSong.map fun s => s.title) ≠ (d.upcomingSong.map fun s => s.title)
      · have hs : stepC st (CEvent.update d)
            = (schedulePrefetch { st with upcomingSong := d.upcomingSong }, []) := by
          simp [stepC, h1, h2]
        rw [hs]
        rw [show (schedulePrefetch { st with upcomingSong := d.upcomingSong }, ([] : List CAction)).1.processedPairs = st.processedPairs from (schedulePrefetch_fields _).2.2.1]
        exact ⟨fun hm => hm, by simp [prewarmCount], by simp [prewarmCount], fun hm => Or.inl hm⟩
      · have hs : stepC st (CEvent.update d) = (st, []) := by
          simp [stepC, h1, h2]
        rw [hs]
        exact ⟨fun hm => hm, by simp [prewarmCount], by simp [prewarmCount], fun hm => Or.inl hm⟩
  | returnData d =>
    have hpp : (stepC st (CEvent.returnData d)).1.processedPairs = st.processedPairs := by
      simp only [stepC]
      split
      · exact (schedulePrefetch_fields _).2.2.1
      · rfl
    have hact : (stepC st (CEvent.returnData d)).2 = [] := by
      simp only [stepC]
    rw [hpp, hact]
    exact ⟨fun hm => hm, by simp [prewarmCount], by simp [prewarmCount], fun hm => Or.inl hm⟩
  | ttsEnded b =>
    have hpp : (stepC st (CEvent.ttsEnded b)).1.processedPairs = st.processedPairs := by
      simp only [stepC]
      split
      · rfl
      · exact (schedulePrefetch_fields _).2.2.1
    have hact : prewarmCount k (stepC st (CEvent.ttsEnded b)).2 = 0 := by
      have : (stepC st (CEvent.ttsEnded b)).2
          = (if b then [CAction.dispatchResume] else [])
            ++ List.replicate st.pendingResume CAction.dispatchResume := rfl
      rw [this, prewarmCount_append, prewarmCount_replicate]
      cases b <;> simp [prewarmCount, prewarmPairOf]
    rw [hpp, hact]
    exact ⟨fun hm => hm, by omega, by omega, fun hm => Or.inl hm⟩
  | timerFire =>
    rcases st with ⟨cs, us, pp, pt, pr, en⟩
    rcases pt with _ | k'
    · exact ⟨fun hm => hm, by simp [stepC, prewarmCount], by simp [stepC, prewarmCount],
             fun hm => Or.inl hm⟩
    · cases cs with
      | none =>
        exact ⟨fun hm => hm, by simp [stepC, performPrefetch, prewarmCount],
               by simp [stepC, performPrefetch, prewarmCount], fun hm => Or.inl hm⟩
      | some c =>
        cases us with
        | none =>
          exact ⟨fun hm => hm, by simp [stepC, performPrefetch, prewarmCount],
                 by simp [stepC, performPrefetch, prewarmCount], fun hm => Or.inl hm⟩
        | some u =>
          by_cases hne : pairKey c.title u.title ≠ k'
          · have hstep : stepC (⟨some c, some u, pp, some k', pr, en⟩ : CoordState)
                CEvent.timerFire = (⟨some c, some u, pp, none, pr, en⟩, []) := by
              simp [stepC, performPrefetch, hne]
            rw [hstep]
            exact ⟨fun hm => hm, by simp [prewarmCount], by simp [prewarmCount],
                   fun hm => Or.inl hm⟩
          · push_neg at hne
            by_cases hmem : k' ∈ pp
            · have hstep : stepC (⟨some c, some u, pp, some k', pr, en⟩ : CoordState)
                  CEvent.timerFire = (⟨some c, some u, pp, none, pr, en⟩, []) := by
                simp [stepC, performPrefetch, hne, hmem]
              rw [hstep]
              exact ⟨fun hm => hm, by simp [prewarmCount], by simp [prewarmCount],
                     fun hm => Or.inl hm⟩
            · have hact1 : (stepC (⟨some c, some u, pp, some k', pr, en⟩ : CoordState)
                  CEvent.timerFire).1.processedPairs = k' :: pp := by
                simp [stepC, performPrefetch, hne, hmem]
              have hact2 : (stepC (⟨some c, some u, pp, some k', pr, en⟩ : CoordState)
                  CEvent.timerFire).2
                  = [CAction.sendPrewarm ⟨c.title, c.artist, u.title, u.artist⟩] := by
                simp [stepC, performPrefetch, hne, hmem]
              have hcnt : prewarmCount k
                  [CAction.sendPrewarm ⟨c.title, c.artist, u.title, u.artist⟩]
                  = if k' = k then 1 else 0 := by
                rw [prewarmCount_prewarm]
                simp only [hne]
              rw [hact1, hact2, hcnt]
              by_cases hk : k' = k
              · subst hk
                refine ⟨fun hm => absurd hm hmem, by simp,
                        fun _ => ⟨hmem, List.mem_cons_self _ _⟩,
                        fun _ => Or.inr (by simp)⟩
              · rw [if_neg hk]
                refine ⟨fun hm => List.mem_cons_of_mem _ hm, by omega, by omega, fun hm => ?_⟩
                rcases List.mem_cons.mp hm with h | h
                · exact absurd h.symm hk
                · exact Or.inl h
  | safetyTimeout =>
    exact ⟨fun hm => hm, by simp [stepC, prewarmCount], by simp [stepC, prewarmCount],
           fun hm => Or.inl hm⟩

theorem runC_cons (st : CoordState) (e : CEvent) (evs : List CEvent) :
    runC st (e :: evs)
      = ((runC (stepC st e).1 evs).1, (stepC st e).2 ++ (runC (stepC st e).1 evs).2) := rfl

theorem runC_mem_mono :
    ∀ (evs : List CEvent) (st : CoordState) (k : Str),
      k ∈ st.processedPairs → k ∈ (runC st evs).1.processedPairs := by
  intro evs
  induction evs with
  | nil => intro st k h; exact h
  | cons e evs ih =>
    intro st k h
    rw [runC_cons]
    exact ih _ _ ((stepC_prewarm_master st e k).1 h)

theorem runC_prewarm_zero :
    ∀ (evs : List CEvent) (st : CoordState) (k : Str),
      k ∈ st.processedPairs → prewarmCount k (runC st evs).2 = 0 := by
  intro evs
  induction evs with
  | nil => intro st k h; rfl
  | cons e evs ih =>
    intro st k h
    rw [runC_cons]
    have hm := stepC_prewarm_master st e k
    have h1 : prewarmCount k (stepC st e).2 = 0 := by
      by_cases hge : 1 ≤ prewarmCount k (stepC st e).2
      · exact absurd h (hm.2.2.1 hge).1
      · omega
    rw [prewarmCount_append, h1, ih _ _ (hm.1 h)]

theorem runC_prewarm_le :
    ∀ (evs : List CEvent) (st : CoordState) (k : Str),
      k ∉ st.processedPairs → prewarmCount k (runC st evs).2 ≤ 1 := by
  intro evs
  induction evs with
  | nil => intro st k _; simp [runC, prewarmCount]
  | cons e evs ih =>
    intro st k h
    rw [runC_cons, prewarmCount_append]
    have hm := stepC_prewarm_master st e k
    by_cases hge : 1 ≤ prewarmCount k (stepC st e).2
    · have hmem := (hm.2.2.1 hge).2
      have h2 := runC_prewarm_zero evs _ k hmem
      have h1 := hm.2.1
      omega
    · have h1 : prewarmCount k (stepC st e).2 = 0 := by omega
      have hnotmem : k ∉ (stepC st e).1.processedPairs := by
        intro hmem
        rcases hm.2.2.2 hmem with hin | hcnt
        · exact h hin
        · exact hge hcnt
      have h2 := ih _ _ hnotmem
      omega

/-- C4: for every pair key, at most one PREWARM request is dispatched per
session, no matter how often scheduling/firing happens; the processed-pairs
set only grows along every step, and a key enters it exactly on the step
that dispatches its PREWARM request. -/
theorem C4_pair_dedup :
    (∀ (st : CoordState) (evs : List CEvent) (k : Str),
      k ∈ st.processedPairs → k ∈ (runC st evs).1.processedPairs)
    ∧ (∀ (st : CoordState) (e : CEvent) (k : Str),
      (1 ≤ prewarmCount k (stepC st e).2 →
        k ∉ st.processedPairs ∧ k ∈ (stepC st e).1.processedPairs)
      ∧ (k ∈ (stepC st e).1.processedPairs →
        k ∈ st.processedPairs ∨ 1 ≤ prewarmCount k (stepC st e).2))
    ∧ (∀ (st : CoordState) (evs : List CEvent) (k : Str),
      k ∉ st.processedPairs → prewarmCount k (runC st evs).2 ≤ 1)
    ∧ (∀ (evs : List CEvent) (k : Str),
      prewarmCount k (runC initialCoordState evs).2 ≤ 1) := by
  refine ⟨fun st evs k h => runC_mem_mono evs st k h,
          fun st e k => ⟨(stepC_prewarm_master st e k).2.2.1, (stepC_prewarm_master st e k).2.2.2⟩,
          fun st evs k h => runC_prewarm_le evs st k h,
          fun evs k => runC_prewarm_le evs initialCoordState k (by simp [initialCoordState])⟩

/-- Witness for C4: concrete runs — a pair already in the set stays in it,
a timer fire dispatches exactly once and records the pair, and two timer
fires from the initial state dispatch at most once. -/
theorem C4_pair_dedup_witness :
    pairKey (str "A") (str "C") ∈
      (runC ⟨some songX, some upcomingC, [pairKey (str "A") (str "C")], none, 0, true⟩
        [CEvent.timerFire]).1.processedPairs
    ∧ (pairKey (str "A") (str "C") ∉ ([] : List Str)
       ∧ pairKey (str "A") (str "C") ∈
          (stepC ⟨some songX, some upcomingC, [], some (pairKey (str "A") (str "C")), 0, true⟩
            CEvent.timerFire).1.processedPairs)
    ∧ prewarmCount (pairKey (str "A") (str "C"))
        (runC initialCoordState [CEvent.timerFire, CEvent.timerFire]).2 ≤ 1 := by
  refine ⟨C4_pair_dedup.1 _ _ _ (by decide), ?_, C4_pair_dedup.2.2.2 _ _⟩
  exact (C4_pair_dedup.2.1
    ⟨some songX, some upcomingC, [], some (pairKey (str "A") (str "C")), 0, true⟩
    CEvent.timerFire (pairKey (str "A") (str "C"))).1 (by decide)

theorem handleSongChange_noResume (st : CoordState) (d : Detail)
    (hen : st.isEnabled = true) (hprev : st.currentSong.isSome)
    (hd : d.currentSong.isSome) :
    (handleSongChange st d).1.isEnabled = true
    ∧ (handleSongChange st d).1.currentSong.isSome
    ∧ CAction.dispatchResume ∉ (handleSongChange st d).2 := by
  rcases Option.isSome_iff_exists.mp hprev with ⟨p, hp⟩
  rcases Option.isSome_iff_exists.mp hd with ⟨c, hc⟩
  simp [handleSongChange, hen, hp, hc]

theorem stepC_noResume (st : CoordState) (e : CEvent)
    (hen : st.isEnabled = true) (hcs : st.currentSong.isSome) (he : noTtsOk e) :
    (stepC st e).1.isEnabled = true ∧ (stepC st e).1.currentSong.isSome
    ∧ CAction.dispatchResume ∉ (stepC st e).2 := by
  cases e with
  | trigger d => exact handleSongChange_noResume st d hen hcs he
  | update d =>
    by_cases h1 : (d.currentSong.map fun s => s.title) ≠ (st.currentSong.map fun s => s.title)
    · have hs : stepC st (CEvent.update d) = handleSongChange st d := by
        simp [stepC, h1]
      rw [hs]
      exact handleSongChange_noResume st d hen hcs he
    · by_cases h2 : (st.upcomingSong.map fun s => s.title) ≠ (d.upcomingSong.map fun s => s.title)
      · have hs : stepC st (CEvent.update d)
            = (schedulePrefetch { st with upcomingSong := d.upcomingSong }, []) := by
          simp [stepC, h1, h2]
        rw [hs]
        have hf := schedulePrefetch_fields { st with upcomingSong := d.upcomingSong }
        refine ⟨?_, ?_, by simp⟩
        · rw [show (schedulePrefetch { st with upcomingSong := d.upcomingSong }, ([] : List CAction)).1.isEnabled = st.isEnabled from hf.2.2.2.2]
          exact hen
        · rw [show (schedulePrefetch { st with upcomingSong := d.upcomingSong }, ([] : List CAction)).1.currentSong = st.currentSong from hf.1]
          exact hcs
      · have hs : stepC st (CEvent.update d) = (st, []) := by
          simp [stepC, h1, h2]
        rw [hs]
        exact ⟨hen, hcs, by simp⟩
  | returnData d =>
    refine ⟨?_, ?_, ?_⟩
    · simp only [stepC]
      split
      · rw [(schedulePrefetch_fields _).2.2.2.2]
        exact hen
      · exact hen
    · simp only [stepC]
      split
      · rw [(schedulePrefetch_fields _).1]
        exact he
      · exact he
    · simp only [stepC]
      simp
  | ttsEnded b => exact absurd he (by simp [noTtsOk])
  | timerFire =>
    rcases ht : st.prefetchTimer with _ | k'
    · have hs : stepC st CEvent.timerFire = (st, []) := by
        simp [stepC, ht]
      rw [hs]
      exact ⟨hen, hcs, by simp⟩
    · have hs : stepC st CEvent.timerFire
          = performPrefetch { st with prefetchTimer := none } k' := by
        simp [stepC, ht]
      rw [hs]
      have hf := performPrefetch_fields { st with prefetchTimer := none } k'
      refine ⟨?_, ?_, hf.2.2.2.2⟩
      · rw [hf.2.2.2.1]
        exact hen
      · rw [hf.1]
        exact hcs
  | safetyTimeout => exact ⟨hen, hcs, by simp [stepC]⟩

theorem runC_noResume :
    ∀ (evs : List CEvent) (st : CoordState),
      st.isEnabled = true → st.currentSong.isSome → (∀ e ∈ evs, noTtsOk e) →
      CAction.dispatchResume ∉ (runC st evs).2 := by
  intro evs
  induction evs with
  | nil => intro st _ _ _; simp [runC]
  | cons e evs ih =>
    intro st hen hcs hall
    rw [runC_cons]
    have hstep := stepC_noResume st e hen hcs (hall e (List.mem_cons_self _ _))
    intro hmem
    rcases List.mem_append.mp hmem with h | h
    · exact hstep.2.2 h
    · exact ih _ hstep.1 hstep.2.1 (fun x hx => hall x (List.mem_cons_of_mem _ hx)) h

/-- C8: the 5-second safety timeout in the announce flow is a no-op (its
body is commented out), so in any run without a `TTS_ENDED` completion
signal the Coordinator never dispatches Resume — the announce flow has no
timeout to force-unlock; the Trap itself never clears the lock on metadata
assignments; and the sole mitigation is the global `TTS_ENDED` listener,
which dispatches Resume exactly when the media element is found paused
when a completion signal (even an unrelated one, `pendingResume = 0`)
arrives. -/
theorem C8_stuck_lock :
    (∀ st : CoordState, stepC st CEvent.safetyTimeout = (st, []))
    ∧ (∀ (st : CoordState) (evs : List CEvent),
      st.isEnabled = true → st.currentSong.isSome → (∀ e ∈ evs, noTtsOk e) →
      CAction.dispatchResume ∉ (runC st evs).2)
    ∧ (∀ st : CoordState, st.pendingResume = 0 →
      (stepC st (CEvent.ttsEnded true)).2 = [CAction.dispatchResume]
      ∧ (stepC st (CEvent.ttsEnded false)).2 = [])
    ∧ (∀ (env : TrapEnv) (st : TrapState) (nv : Option MediaMetadata),
      st.isLocked = true → (metadataSet env st nv).1.isLocked = true) := by
  refine ⟨fun st => rfl, fun st evs hen hcs hall => runC_noResume evs st hen hcs hall,
          fun st hpr => ⟨?_, ?_⟩, fun env st nv hl => ?_⟩
  · simp [stepC, hpr]
  · simp [stepC, hpr]
  · cases nv with
    | none => exact hl
    | some m =>
      by_cases hm : m.title ≠ st.currentTitle
      · cases hgp : getPlayerStatus env.player (some m) <;>
          simp [metadataSet, hm, broadcast, hgp]
      · simp [metadataSet, hm]
        exact hl

/-- Witness for C8: a run consisting of a trigger (announce dispatched)
followed by a timer fire, with no completion signal, emits no Resume; an
unrelated completion signal resumes exactly when the video is paused; and
a locking metadata assignment never clears an already-set lock. -/
theorem C8_stuck_lock_witness :
    CAction.dispatchResume ∉ (runC coordStA [CEvent.trigger detailB, CEvent.timerFire]).2
    ∧ (stepC coordStA (CEvent.ttsEnded true)).2 = [CAction.dispatchResume]
    ∧ (stepC coordStA (CEvent.ttsEnded false)).2 = []
    ∧ (metadataSet trapEnvOk ⟨true, str "A", [], none⟩ (some ⟨str "B", str "Y", []⟩)).1.isLocked
        = true := by
  refine ⟨C8_stuck_lock.2.1 coordStA _ rfl (by decide) ?_,
          (C8_stuck_lock.2.2.1 coordStA rfl).1, (C8_stuck_lock.2.2.1 coordStA rfl).2,
          C8_stuck_lock.2.2.2 trapEnvOk ⟨true, str "A", [], none⟩ (some ⟨str "B", str "Y", []⟩) rfl⟩
  intro e he
  rcases List.mem_cons.mp he with rfl | he2
  · simp [noTtsOk, detailB]
  · rcases List.mem_cons.mp he2 with rfl | he3
    · simp [noTtsOk]
    · cases he3
